import Mathlib

/-!
Verification development for propanelib's hierarchical configuration
resolution engine (`src/tasks.py`, class `env`, helpers `fs.shexpand`).

The engine's data are Python values produced by a YAML loader: nested
dictionaries, lists and scalars.  We embed them as the inductive `Value`.
Python dictionaries preserve insertion order and `d[k] = v` keeps the
position of an existing key, which the association-list operations below
reproduce.

Embedded operations (each `def` carries the source location it embeds):
  - `update1` / `updGo`    : `env.update` (tasks.py 645-672), one source
  - `updateMany`           : `env.update` folded over `*mapping`
  - `li`, `dmapLi`, `dmapLiOne`, `dmapEntries`
                           : `env.dmap` (559-582) specialised to the
                             `_load_include` callback (604-631)
  - `loadF`, `loadPaths`, `loadVal` : `env.load` (585-642)
  - `dmapTrace` family     : `env.dmap` with a pure observing callback
  - a heap model (`HNode`, `Heap`, `h*` functions) re-embedding the same
    code with explicit object identity, used for aliasing claims.

Exceptions are modelled by `Except Err`.  `Err.typeErr` is Python's
`TypeError`; `Err.recLimit` is Python's `RecursionError` (the interpreter
aborting unbounded recursion).  `contextlib.suppress(AttributeError)` in
`dmap`/`update` corresponds to the non-dict match arms (only dicts have
`.items`), and `suppress(KeyError)` around `del` to the total `delKey`.
-/

inductive Value where
  | vnull
  | vbool (b : Bool)
  | vint (n : Int)
  | vstr (s : String)
  | vlist (xs : List Value)
  | vdict (es : List (String × Value))
  deriving Repr

inductive Err where
  | typeErr
  | recLimit
  deriving Repr, DecidableEq

/-- The external collaborators of the resolver: `fs.shexpand`'s glob
expansion of one pattern (tasks.py 233-259, `os.path.expanduser`,
`os.path.expandvars` and `glob.glob` folded into `expand`) and the YAML
parse of one matched file (`yaml.safe_load`, tasks.py 638).  `expand`
returns only existing paths, and every returned path parses; parse and
I/O failures abort resolution and are outside the claims below. -/
structure FS where
  expand : String → List String
  file : String → Value

/-- `fs.shexpand` applied to the tuple of patterns given to `env.load`:
each pattern is expanded and the path lists are flattened (tasks.py
254-259). -/
def shexpand (fsys : FS) (patterns : List String) : List String :=
  (patterns.map fsys.expand).flatten

def Value.isDict : Value → Bool
  | .vdict _ => true
  | _ => false

/-- Key membership in a Python dict (`k in target` for a dict). -/
def containsKey : List (String × Value) → String → Bool
  | [], _ => false
  | (k', _) :: rest, k => k' == k || containsKey rest k

/-- `d[k]` read on a Python dict. -/
def lookupKey : List (String × Value) → String → Option Value
  | [], _ => none
  | (k', v) :: rest, k => if k' == k then some v else lookupKey rest k

/-- `d[k] = v` on a Python dict: replace in place when the key exists
(keeping its position), append otherwise. -/
def setKey : List (String × Value) → String → Value → List (String × Value)
  | [], k, v => [(k, v)]
  | (k', v') :: rest, k, v =>
    if k' == k then (k', v) :: rest else (k', v') :: setKey rest k v

/-- `del d[k]` under `suppress(KeyError)` (tasks.py 624-625): remove the
key when present, no-op otherwise (and on non-dicts, which `_load_include`
is never handed as `mapping`). -/
def delKey (live : Value) (k : String) : Value :=
  match live with
  | .vdict es => .vdict (es.filter fun e => e.1 != k)
  | _ => live

/-- `k in target` when `target` is a Python list: membership by `==`; a
string key only ever equals a string element. -/
def pyInList (xs : List Value) (k : String) : Bool :=
  xs.any fun x => match x with | .vstr s => s == k | _ => false

def charsStartWith : List Char → List Char → Bool
  | _, [] => true
  | [], _ :: _ => false
  | a :: as, b :: bs => a == b && charsStartWith as bs

def charsContain : List Char → List Char → Bool
  | [], pat => pat.isEmpty
  | a :: as, pat => charsStartWith (a :: as) pat || charsContain as pat

/-- `k in target` when `target` is a Python string: substring test. -/
def strContains (s pat : String) : Bool :=
  charsContain s.data pat.data

/-- The `k in target` test of `env.update` (tasks.py 669).  `in` on a
number, boolean or `None` raises `TypeError`. -/
def pyContains : Value → String → Except Err Bool
  | .vdict es, k => .ok (containsKey es k)
  | .vlist xs, k => .ok (pyInList xs k)
  | .vstr s, k => .ok (strContains s k)
  | _, _ => .error .typeErr

/-! Structural equality of values (Python `==` restricted to the value
kinds the engine handles).  Used by `writeBack` as the purely structural
stand-in for object identity. -/
mutual

def veq : Value → Value → Bool
  | .vnull, .vnull => true
  | .vbool a, .vbool b => a == b
  | .vint a, .vint b => a == b
  | .vstr a, .vstr b => a == b
  | .vlist xs, .vlist ys => veqList xs ys
  | .vdict es, .vdict gs => veqEntries es gs
  | _, _ => false

def veqList : List Value → List Value → Bool
  | [], [] => true
  | x :: xs, y :: ys => veq x y && veqList xs ys
  | _, _ => false

def veqEntries : List (String × Value) → List (String × Value) → Bool
  | [], [] => true
  | (k, v) :: es, (k', v') :: gs => k == k' && veq v v' && veqEntries es gs
  | _, _ => false

end

/-- In-place mutation of a child object, seen from its parent mapping: the
walker mutated the object that was `live[k]` at snapshot time.  The
mutation is visible in `live` exactly when `live[k]` is still that object;
in this pure tree model "same object" is approximated by structural
equality with the snapshot value. -/
def writeBack (live : Value) (k : String) (vOld vNew : Value) : Value :=
  match live with
  | .vdict es =>
    match lookupKey es k with
    | some cur => if veq cur vOld then .vdict (setKey es k vNew) else live
    | none => live
  | _ => live

/-!  `env.update` (tasks.py 645-672), one source mapping.

```
for m in mapping:
    with suppress(AttributeError):
        for k, v in tuple(m.items()):
            if k in target and isinstance(v, dict):
                cls.update(target[k], v)
            else:
                target[k] = deepcopy(v)
```

A non-dict source has no `.items`: the `AttributeError` is suppressed and
the source is skipped.  The `k in target` test can raise `TypeError`
(non-iterable target); `target[k]` read or assignment on a string or list
target with a string key also raises `TypeError`.  `deepcopy` of a value
is, in a pure tree model, the value itself.  -/

mutual

def update1 (t : Value) : Value → Except Err Value
  | .vdict es => updGo t es
  | _ => .ok t

def updGo (t : Value) : List (String × Value) → Except Err Value
  | [] => .ok t
  | (k, v) :: rest => do
    let c ← pyContains t k
    if c && v.isDict then
      match t with
      | .vdict es => do
        let cur := (lookupKey es k).getD .vnull
        let cur' ← update1 cur v
        updGo (.vdict (setKey es k cur')) rest
      | _ => .error .typeErr
    else
      match t with
      | .vdict es => updGo (.vdict (setKey es k v)) rest
      | _ => .error .typeErr

end

/-- `env.update(target, *mapping)`: fold the sources left to right. -/
def updateMany (t : Value) : List Value → Except Err Value
  | [] => .ok t
  | s :: rest => do
    let t' ← update1 t s
    updateMany t' rest

/-! Modelled from the spec (section 4.1), for comparison with `update1`:
"if `k` already exists in `target` and BOTH the existing value and `v`
are mappings, recurse; otherwise set `target[k]` to a deep, independent
copy of `v`".  Non-mapping sources are skipped; a non-mapping target is
the caller's responsibility (left unchanged here). -/
mutual

def updateSpec (t : Value) : Value → Value
  | .vdict es => updateSpecGo t es
  | _ => t

def updateSpecGo (t : Value) : List (String × Value) → Value
  | [] => t
  | (k, v) :: rest =>
    match t with
    | .vdict es =>
      let hit := (lookupKey es k).getD .vnull
      if containsKey es k && hit.isDict && v.isDict then
        updateSpecGo (.vdict (setKey es k (updateSpec hit v))) rest
      else
        updateSpecGo (.vdict (setKey es k v)) rest
    | _ => updateSpecGo t rest

end

/-!  `env.dmap` (tasks.py 559-582) specialised to the `_load_include`
callback of `env.load` (tasks.py 604-631).

```
for m in mapping:
    with suppress(AttributeError):
        for k, v in tuple(m.items()):
            if recurse and isinstance(v, dict):
                cls.dmap(callback, v, recurse)
            else:
                callback(m, k, v)
```

The nested call `cls.dmap(callback, v, recurse)` passes `recurse`
POSITIONALLY: `dmap`'s signature is `dmap(cls, callback, *mapping,
recurse=False)`, so `v` and the boolean land in `*mapping` and the nested
walk runs with `recurse=False`.  The boolean extra "mapping" has no
`.items` and is silently skipped, so the nested call is modelled as
`dmapLiOne loader false v`.

The callback `_load_include(mapping, key, val)`:

```
if key == 'include':
    with suppress(KeyError):
        del mapping[key]
    cls.update(mapping, cls.load(val))
with suppress(TypeError):
    cls.dmap(_load_include, *val, recurse=True)
```

`cls.load(val)` is abstracted as the `loader` argument (tied back to
`loadF` below).  `*val` splats `val`: a list contributes its elements to
the walk (with `recurse=True`, passed by keyword this time); a dict
contributes its keys and a string its characters, all strings without
`.items`, i.e. no-ops; splatting a number raises `TypeError`, suppressed.
The surrounding `suppress(TypeError)` also swallows a `TypeError` thrown
by a nested callback during that walk (its partial in-place effects are
not reproduced by this pure model; no claim below exercises that corner);
a `RecursionError` is not caught and propagates.  -/

mutual

def li (loader : Value → Except Err Value) (live : Value) (k : String)
    (v : Value) : Except Err Value := do
  let live1 ←
    if k == "include" then do
      let live' := delKey live k
      let inc ← loader v
      update1 live' inc
    else .ok live
  match v with
  | .vlist xs =>
    match dmapLi loader true xs with
    | .ok xs' => .ok (writeBack live1 k (.vlist xs) (.vlist xs'))
    | .error .typeErr => .ok live1
    | .error e => .error e
  | _ => .ok live1

def dmapLi (loader : Value → Except Err Value) (recurse : Bool) :
    List Value → Except Err (List Value)
  | [] => .ok []
  | m :: rest => do
    let m' ← dmapLiOne loader recurse m
    let rest' ← dmapLi loader recurse rest
    .ok (m' :: rest')

def dmapLiOne (loader : Value → Except Err Value) (recurse : Bool) :
    Value → Except Err Value
  | .vdict es => dmapEntries loader recurse (.vdict es) es
  | v => .ok v

def dmapEntries (loader : Value → Except Err Value) (recurse : Bool)
    (live : Value) : List (String × Value) → Except Err Value
  | [] => .ok live
  | (k, v) :: rest => do
    if recurse && v.isDict then
      let v' ← dmapLiOne loader false v
      dmapEntries loader recurse (writeBack live k v v') rest
    else
      let live' ← li loader live k v
      dmapEntries loader recurse live' rest

end

/-- `cls.load(val)` inside `_load_include` (tasks.py 626): the include
value becomes the single positional pattern of a recursive `env.load`.
`fs.shexpand` only handles a string; `os.path` expansion of any other
value raises `TypeError`. -/
def loadVal (ld : List String → Except Err Value) : Value → Except Err Value
  | .vstr s => ld [s]
  | _ => .error .typeErr

/-- The per-path loop of `env.load` (tasks.py 635-640): parse the file,
run the include walker over it, merge it into the accumulator. -/
def loadPaths (fsys : FS) (loader : Value → Except Err Value) :
    List String → Value → Except Err Value
  | [], env => .ok env
  | p :: rest, env => do
    let loaded := fsys.file p
    let loaded' ← dmapLiOne loader true loaded
    let env' ← update1 env loaded'
    loadPaths fsys loader rest env'

/-- `env.ENVIRONMENT_DEFAULTS` (tasks.py 542-556); the `doc.build_d`
entry is assigned after the literal, hence appended last. -/
def ENVIRONMENT_DEFAULTS : Value :=
  .vdict
    [("project", .vdict
        [("default_env", .vstr "dev"),
         ("build_d", .vstr "build"),
         ("src_d", .vstr "src")]),
     ("doc", .vdict
        [("insert_code", .vbool true),
         ("src_d", .vstr "doc"),
         ("target", .vstr "html"),
         ("build_d", .vstr "build/doc")])]

/-- `env.load` (tasks.py 585-642).  `fuel` bounds the recursion depth of
nested `include` resolution, standing for Python's interpreter recursion
limit: `Err.recLimit` is the `RecursionError` an unbounded include chain
produces.  `ENVIRONMENT_DEFAULTS.copy()` is a shallow copy; in this pure
tree model copying is the identity (object identity is studied separately
in the heap model below). -/
def loadF (fsys : FS) : Nat → List String → Bool → Except Err Value
  | 0, _, _ => .error .recLimit
  | fuel + 1, patterns, useDefaults => do
    let loader := loadVal fun pats => loadF fsys fuel pats false
    let env0 := if useDefaults then ENVIRONMENT_DEFAULTS else .vdict []
    let env1 ← dmapLiOne loader true env0
    loadPaths fsys loader (shexpand fsys patterns) env1

/-!  `env.dmap` with a pure, non-mutating observer callback: `dmapTrace`
returns the list of `(mapping, key, value)` triples the callback is
invoked on, in invocation order.  The nested call keeps the source's
literal shape `cls.dmap(callback, v, recurse)`: the mapping list is
`[v, recurse]` and the keyword `recurse` defaults to `False`. -/

mutual

def dmapTrace (recurse : Bool) : List Value → List (Value × String × Value)
  | [] => []
  | m :: rest => dmapTraceOne recurse m ++ dmapTrace recurse rest

def dmapTraceOne (recurse : Bool) : Value → List (Value × String × Value)
  | .vdict es => dmapTraceEntries recurse (.vdict es) es
  | _ => []

def dmapTraceEntries (recurse : Bool) (live : Value) :
    List (String × Value) → List (Value × String × Value)
  | [] => []
  | (k, v) :: rest =>
    -- Source: `cls.dmap(callback, v, recurse)` — the mapping list of the
    -- nested call is `(v, recurse)` and the keyword `recurse` defaults to
    -- `False`.  The boolean extra "mapping" has no `.items`, contributes
    -- no visits, and is dropped here; only `v` is walked, without
    -- recursion.
    (if recurse && v.isDict then dmapTraceOne false v
     else [(live, k, v)]) ++ dmapTraceEntries recurse live rest

end

/-! Does the tree contain a mapping key literally named `include`, at any
depth (also inside sequences)? -/
mutual

def hasIncludeDeep : Value → Bool
  | .vdict es => containsKey es "include" || hasIncludeEntries es
  | .vlist xs => hasIncludeList xs
  | _ => false

def hasIncludeEntries : List (String × Value) → Bool
  | [] => false
  | (_, v) :: rest => hasIncludeDeep v || hasIncludeEntries rest

def hasIncludeList : List Value → Bool
  | [] => false
  | v :: rest => hasIncludeDeep v || hasIncludeList rest

end

def getKey (v : Value) (k : String) : Option Value :=
  match v with
  | .vdict es => lookupKey es k
  | _ => none

def hasKey (v : Value) (k : String) : Bool :=
  match v with
  | .vdict es => containsKey es k
  | _ => false

/-!
Heap model.

The pure tree model above abstracts Python object identity away.  The
claims about mutation and aliasing need it, so the same source functions
are re-embedded over an explicit heap: every Python object lives at an
address (`Nat`), mappings and sequences hold the addresses of their
children, and in-place mutation is a store at an address.  All recursion
through the heap is bounded by a fuel argument (running out of fuel is
`Err.recLimit`, as in the pure model); the concrete runs below use ample
fuel.
-/

inductive HNode where
  | hnull
  | hbool (b : Bool)
  | hint (n : Int)
  | hstr (s : String)
  | hlist (xs : List Nat)
  | hdict (es : List (String × Nat))
  deriving Repr

def HNode.isDict : HNode → Bool
  | .hdict _ => true
  | _ => false

structure Heap where
  mem : List (Nat × HNode)
  next : Nat
  deriving Repr

def hsetMem : List (Nat × HNode) → Nat → HNode → List (Nat × HNode)
  | [], a, n => [(a, n)]
  | (a', n') :: rest, a, n =>
    if a' == a then (a', n) :: rest else (a', n') :: hsetMem rest a n

def Heap.get (h : Heap) (a : Nat) : HNode :=
  match h.mem.find? (fun e => e.1 == a) with
  | some e => e.2
  | none => .hnull

def Heap.set (h : Heap) (a : Nat) (n : HNode) : Heap :=
  { h with mem := hsetMem h.mem a n }

def Heap.alloc (h : Heap) (n : HNode) : Heap × Nat :=
  ({ mem := hsetMem h.mem h.next n, next := h.next + 1 }, h.next)

def lookupAddr : List (String × Nat) → String → Option Nat
  | [], _ => none
  | (k', a) :: rest, k => if k' == k then some a else lookupAddr rest k

def setAddr : List (String × Nat) → String → Nat → List (String × Nat)
  | [], k, a => [(k, a)]
  | (k', a') :: rest, k, a =>
    if k' == k then (k', a) :: rest else (k', a') :: setAddr rest k a

def containsAddr (es : List (String × Nat)) (k : String) : Bool :=
  es.any fun e => e.1 == k

/-! Allocate a parsed value tree in the heap (`yaml.safe_load` building
fresh objects, or a literal constant). -/
mutual

def allocTree (h : Heap) : Value → Heap × Nat
  | .vnull => h.alloc .hnull
  | .vbool b => h.alloc (.hbool b)
  | .vint n => h.alloc (.hint n)
  | .vstr s => h.alloc (.hstr s)
  | .vlist xs =>
    let (h', as) := allocList h xs
    h'.alloc (.hlist as)
  | .vdict es =>
    let (h', ps) := allocEntries h es
    h'.alloc (.hdict ps)

def allocList (h : Heap) : List Value → Heap × List Nat
  | [] => (h, [])
  | v :: rest =>
    let (h1, a) := allocTree h v
    let (h2, as) := allocList h1 rest
    (h2, a :: as)

def allocEntries (h : Heap) : List (String × Value) → Heap × List (String × Nat)
  | [] => (h, [])
  | (k, v) :: rest =>
    let (h1, a) := allocTree h v
    let (h2, ps) := allocEntries h1 rest
    (h2, (k, a) :: ps)

end

/-! Read a value tree back out of the heap (pure observation, not a
source operation). -/
mutual

def readTree : Nat → Heap → Nat → Option Value
  | 0, _, _ => none
  | fuel + 1, h, a =>
    match h.get a with
    | .hnull => some .vnull
    | .hbool b => some (.vbool b)
    | .hint n => some (.vint n)
    | .hstr s => some (.vstr s)
    | .hlist xs => (readAddrs fuel h xs).map .vlist
    | .hdict es => (readEntries fuel h es).map .vdict

def readAddrs : Nat → Heap → List Nat → Option (List Value)
  | 0, _, _ => none
  | _ + 1, _, [] => some []
  | fuel + 1, h, a :: rest => do
    let v ← readTree fuel h a
    let vs ← readAddrs fuel h rest
    some (v :: vs)

def readEntries : Nat → Heap → List (String × Nat) → Option (List (String × Value))
  | 0, _, _ => none
  | _ + 1, _, [] => some []
  | fuel + 1, h, (k, a) :: rest => do
    let v ← readTree fuel h a
    let vs ← readEntries fuel h rest
    some ((k, v) :: vs)

end

/-- `k in target` over the heap (`env.update`, tasks.py 669). -/
def hContains (h : Heap) (t : Nat) (k : String) : Except Err Bool :=
  match h.get t with
  | .hdict es => .ok (containsAddr es k)
  | .hlist xs =>
    .ok (xs.any fun a => match h.get a with | .hstr s => s == k | _ => false)
  | .hstr s => .ok (strContains s k)
  | _ => .error .typeErr

/-!  The heap versions of `copy.deepcopy`, `env.update`, `env.dmap` with
`_load_include`, and `env.load`.  They follow the same source lines as
the pure model above; see the comments there for the control flow,
including the positional-`recurse` slip in `dmap`'s nested call.  The
defaults dict `env.ENVIRONMENT_DEFAULTS` is a module-level object: its
address `dA` is threaded to wherever `cls.ENVIRONMENT_DEFAULTS` is read.
`dict.copy()` (tasks.py 602) allocates a NEW top-level dict carrying the
SAME child addresses — a shallow copy.  `deepcopy` allocates a fresh node
for every reachable child (the inputs here are trees, so `deepcopy`'s
sharing memo changes nothing). -/

mutual

def hDeepcopy : Nat → Heap → Nat → Except Err (Heap × Nat)
  | 0, _, _ => .error .recLimit
  | fuel + 1, h, a =>
    match h.get a with
    | .hlist xs => do
      let (h', as) ← hCopyAddrs fuel h xs
      .ok (Heap.alloc h' (.hlist as))
    | .hdict es => do
      let (h', ps) ← hCopyEntries fuel h es
      .ok (Heap.alloc h' (.hdict ps))
    | n => .ok (h.alloc n)
termination_by structural fuel _ _ => fuel

def hCopyAddrs : Nat → Heap → List Nat → Except Err (Heap × List Nat)
  | 0, _, _ => .error .recLimit
  | _ + 1, h, [] => .ok (h, [])
  | fuel + 1, h, a :: rest => do
    let (h1, c) ← hDeepcopy fuel h a
    let (h2, cs) ← hCopyAddrs fuel h1 rest
    .ok (h2, c :: cs)
termination_by structural fuel _ _ => fuel

def hCopyEntries : Nat → Heap → List (String × Nat) →
    Except Err (Heap × List (String × Nat))
  | 0, _, _ => .error .recLimit
  | _ + 1, h, [] => .ok (h, [])
  | fuel + 1, h, (k, a) :: rest => do
    let (h1, c) ← hDeepcopy fuel h a
    let (h2, cs) ← hCopyEntries fuel h1 rest
    .ok (h2, (k, c) :: cs)
termination_by structural fuel _ _ => fuel

def hUpdate : Nat → Heap → Nat → Nat → Except Err Heap
  | 0, _, _, _ => .error .recLimit
  | fuel + 1, h, t, src =>
    match h.get src with
    | .hdict es => hUpdGo fuel h t es
    | _ => .ok h
termination_by structural fuel _ _ _ => fuel

def hUpdGo : Nat → Heap → Nat → List (String × Nat) → Except Err Heap
  | 0, _, _, _ => .error .recLimit
  | _ + 1, h, _, [] => .ok h
  | fuel + 1, h, t, (k, vA) :: rest => do
    let c ← hContains h t k
    if c && (h.get vA).isDict then
      match h.get t with
      | .hdict tes => do
        let curA := (lookupAddr tes k).getD 0
        let h1 ← hUpdate fuel h curA vA
        hUpdGo fuel h1 t rest
      | _ => .error .typeErr
    else
      match h.get t with
      | .hdict tes => do
        let (h1, cA) ← hDeepcopy fuel h vA
        let h2 := h1.set t (.hdict (setAddr tes k cA))
        hUpdGo fuel h2 t rest
      | _ => .error .typeErr
termination_by structural fuel _ _ _ => fuel

def hLi : Nat → Heap → FS → Nat → Nat → String → Nat → Except Err Heap
  | 0, _, _, _, _, _, _ => .error .recLimit
  | fuel + 1, h, fsys, dA, liveA, k, vA => do
    let h1 ←
      if k == "include" then
        let h' :=
          match h.get liveA with
          | .hdict es => h.set liveA (.hdict (es.filter fun e => e.1 != k))
          | _ => h
        match h'.get vA with
        | .hstr s => do
          let (h2, incA) ← hLoad fuel h' fsys dA [s] false
          hUpdate fuel h2 liveA incA
        | _ => .error .typeErr
      else .ok h
    match h1.get vA with
    | .hlist xs =>
      match hDmapAddrs fuel h1 fsys dA true xs with
      | .ok h2 => .ok h2
      | .error .typeErr => .ok h1
      | .error e => .error e
    | _ => .ok h1
termination_by structural fuel _ _ _ _ _ _ => fuel

def hDmapAddrs : Nat → Heap → FS → Nat → Bool → List Nat → Except Err Heap
  | 0, _, _, _, _, _ => .error .recLimit
  | _ + 1, h, _, _, _, [] => .ok h
  | fuel + 1, h, fsys, dA, recurse, a :: rest => do
    let h1 ← hDmapOne fuel h fsys dA recurse a
    hDmapAddrs fuel h1 fsys dA recurse rest
termination_by structural fuel _ _ _ _ _ => fuel

def hDmapOne : Nat → Heap → FS → Nat → Bool → Nat → Except Err Heap
  | 0, _, _, _, _, _ => .error .recLimit
  | fuel + 1, h, fsys, dA, recurse, a =>
    match h.get a with
    | .hdict es => hDmapEntries fuel h fsys dA recurse a es
    | _ => .ok h
termination_by structural fuel _ _ _ _ _ => fuel

def hDmapEntries : Nat → Heap → FS → Nat → Bool → Nat →
    List (String × Nat) → Except Err Heap
  | 0, _, _, _, _, _, _ => .error .recLimit
  | _ + 1, h, _, _, _, _, [] => .ok h
  | fuel + 1, h, fsys, dA, recurse, liveA, (k, vA) :: rest => do
    if recurse && (h.get vA).isDict then
      let h1 ← hDmapOne fuel h fsys dA false vA
      hDmapEntries fuel h1 fsys dA recurse liveA rest
    else
      let h1 ← hLi fuel h fsys dA liveA k vA
      hDmapEntries fuel h1 fsys dA recurse liveA rest
termination_by structural fuel _ _ _ _ _ _ => fuel

def hLoad : Nat → Heap → FS → Nat → List String → Bool →
    Except Err (Heap × Nat)
  | 0, _, _, _, _, _ => .error .recLimit
  | fuel + 1, h, fsys, dA, patterns, useDefaults => do
    let (h1, envA) :=
      if useDefaults then
        match h.get dA with
        | .hdict es => h.alloc (.hdict es)
        | n => h.alloc n
      else h.alloc (.hdict [])
    let h2 ← hDmapOne fuel h1 fsys dA true envA
    let h3 ← hLoadPaths fuel h2 fsys dA (shexpand fsys patterns) envA
    .ok (h3, envA)
termination_by structural fuel _ _ _ _ _ => fuel

def hLoadPaths : Nat → Heap → FS → Nat → List String → Nat → Except Err Heap
  | 0, _, _, _, _, _ => .error .recLimit
  | _ + 1, h, _, _, [], _ => .ok h
  | fuel + 1, h, fsys, dA, p :: rest, envA => do
    let (h1, loadedA) := allocTree h (fsys.file p)
    let h2 ← hDmapOne fuel h1 fsys dA true loadedA
    let h3 ← hUpdate fuel h2 envA loadedA
    hLoadPaths fuel h3 fsys dA rest envA
termination_by structural fuel _ _ _ _ _ => fuel

end

/-- The address a mapping at address `a` holds for key `k` (observation
of aliasing between trees). -/
def childAddr (h : Heap) (a : Nat) (k : String) : Option Nat :=
  match h.get a with
  | .hdict es => lookupAddr es k
  | _ => none

/-!
Concrete fixtures: tiny file systems used by the claim theorems.  Each
`FS` fixes what the Path Pattern Expander and the YAML parser return, so
a run of the resolver on it is a closed computation.
-/

/-- A file `main.yaml` holding `{include: "extra.yaml", k: 1}` next to a
file `extra.yaml` holding `{k: 2, j: 3}`. -/
def fsC1 : FS :=
  { expand := fun p => if p == "main.yaml" || p == "extra.yaml" then [p] else []
    file := fun p =>
      if p == "main.yaml" then .vdict [("include", .vstr "extra.yaml"), ("k", .vint 1)]
      else .vdict [("k", .vint 2), ("j", .vint 3)] }

/-- A file `main.yaml` holding `{a: {b: {include: "x.yaml"}}}` next to a
file `x.yaml` holding `{j: 3}`: an include directive two mapping levels
down. -/
def fsC3 : FS :=
  { expand := fun p => if p == "main.yaml" || p == "x.yaml" then [p] else []
    file := fun p =>
      if p == "main.yaml" then
        .vdict [("a", .vdict [("b", .vdict [("include", .vstr "x.yaml")])])]
      else .vdict [("j", .vint 3)] }

/-- Two files that include each other: `a.yaml` holds
`{include: "b.yaml"}` and `b.yaml` holds `{include: "a.yaml"}`. -/
def fsCyc : FS :=
  { expand := fun p => if p == "a.yaml" || p == "b.yaml" then [p] else []
    file := fun p =>
      if p == "a.yaml" then .vdict [("include", .vstr "b.yaml")]
      else .vdict [("include", .vstr "a.yaml")] }

/-- A file system on which every pattern matches zero files. -/
def fsNada : FS := { expand := fun _ => [], file := fun _ => .vnull }

/-- Caller defaults `{project: {src_d: "src"}}` for the aliasing run. -/
def c6Defaults : Value := .vdict [("project", .vdict [("src_d", .vstr "src")])]

/-- One override file `env.conf` holding `{project: {src_d: "other"}}`. -/
def fsC6 : FS :=
  { expand := fun p => if p == "env.conf" then ["env.conf"] else []
    file := fun _ => .vdict [("project", .vdict [("src_d", .vstr "other")])] }

/-- The initial heap holding the defaults tree, and its address. -/
def c6Start : Heap × Nat := allocTree { mem := [], next := 0 } c6Defaults

/-- `env.load('env.conf', use_defaults=True)` over that heap. -/
def c6Run : Except Err (Heap × Nat) :=
  hLoad 50 c6Start.1 fsC6 c6Start.2 ["env.conf"] true

/-!
Helper lemmas.
-/

theorem exBindOk {A B : Type} (a : A) (f : A → Except Err B) :
    (Except.ok a >>= f) = f a := rfl

theorem exBindErr {A B : Type} (e : Err) (f : A → Except Err B) :
    ((Except.error e : Except Err A) >>= f) = .error e := rfl

theorem lookupKey_setKey_self (es : List (String × Value)) (k : String) (v : Value) :
    lookupKey (setKey es k v) k = some v := by
  induction es with
  | nil => simp [setKey, lookupKey]
  | cons e rest ih =>
    obtain ⟨a, b⟩ := e
    rw [setKey]
    by_cases hak : (a == k) = true
    · simp [hak, lookupKey]
    · simp only [hak, if_false, Bool.false_eq_true]
      rw [lookupKey]
      simp [hak, ih]

theorem containsKey_of_lookup (es : List (String × Value)) (k : String) (v : Value)
    (h : lookupKey es k = some v) : containsKey es k = true := by
  induction es with
  | nil => simp [lookupKey] at h
  | cons e rest ih =>
    obtain ⟨a, b⟩ := e
    rw [lookupKey] at h
    rw [containsKey]
    by_cases hak : (a == k) = true
    · simp [hak]
    · simp only [hak, if_false, Bool.false_eq_true, Bool.false_or] at h ⊢
      exact ih h

theorem containsKey_setKey (es : List (String × Value)) (k' : String) (v' : Value)
    (k : String) (h : containsKey es k = true) :
    containsKey (setKey es k' v') k = true := by
  induction es with
  | nil => rw [containsKey] at h; cases h
  | cons e rest ih =>
    obtain ⟨a, b⟩ := e
    rw [containsKey] at h
    rw [setKey]
    by_cases hak : (a == k') = true
    · rw [if_pos hak, containsKey]
      exact h
    · rw [if_neg hak, containsKey]
      by_cases hk2 : (a == k) = true
      · simp [hk2]
      · simp only [hk2, Bool.false_or] at h ⊢
        exact ih h

/-- The per-entry loop of `env.update` can only add keys to a dict
target, never remove one: `setKey` preserves every present key and the
recursive branch rewrites a value in place. -/
theorem updGo_hasKey (es0 : List (String × Value)) :
    ∀ t t', updGo t es0 = .ok t' → ∀ k0, hasKey t k0 = true → hasKey t' k0 = true := by
  induction es0 with
  | nil =>
    intro t t' h k0 hk
    rw [updGo] at h
    cases h
    exact hk
  | cons e rest ih =>
    intro t t' h k0 hk
    obtain ⟨k, v⟩ := e
    cases t with
    | vdict es =>
      rw [updGo] at h
      simp only [pyContains, exBindOk] at h
      by_cases hc : (containsKey es k && v.isDict) = true
      · rw [if_pos hc] at h
        cases hupd : update1 ((lookupKey es k).getD .vnull) v with
        | error e => rw [hupd] at h; simp [exBindErr] at h
        | ok cur' =>
          rw [hupd] at h
          simp only [exBindOk] at h
          have := ih _ _ h k0
          simp [hasKey] at this ⊢
          exact this (containsKey_setKey _ _ _ _ (by simpa [hasKey] using hk))
      · rw [if_neg hc] at h
        have := ih _ _ h k0
        simp [hasKey] at this ⊢
        exact this (containsKey_setKey _ _ _ _ (by simpa [hasKey] using hk))
    | vnull => simp [hasKey] at hk
    | vbool b => simp [hasKey] at hk
    | vint n => simp [hasKey] at hk
    | vstr s => simp [hasKey] at hk
    | vlist xs => simp [hasKey] at hk

theorem update1_hasKey (t s t' : Value) (h : update1 t s = .ok t')
    (k0 : String) (hk : hasKey t k0 = true) : hasKey t' k0 = true := by
  cases s with
  | vdict es => exact updGo_hasKey es t t' h k0 hk
  | vnull =>
    have h' : (Except.ok t : Except Err Value) = .ok t' := h
    cases h'
    exact hk
  | vbool b =>
    have h' : (Except.ok t : Except Err Value) = .ok t' := h
    cases h'
    exact hk
  | vint n =>
    have h' : (Except.ok t : Except Err Value) = .ok t' := h
    cases h'
    exact hk
  | vstr s2 =>
    have h' : (Except.ok t : Except Err Value) = .ok t' := h
    cases h'
    exact hk
  | vlist xs =>
    have h' : (Except.ok t : Except Err Value) = .ok t' := h
    cases h'
    exact hk

/-!
Claim theorems.
-/

/-- Claim C1, counterexample.  The claim states that for a file
`{include: "extra.yaml", k: 1}` with `extra.yaml` holding `{k: 2, j: 3}`,
`env.load` returns `{k: 1, j: 3}` — the including file's direct key `k`
winning over the included value.  On the embedded code the resolver
returns `{k: 2, j: 3}`: `_load_include` deletes the directive and then
runs `cls.update(mapping, cls.load(val))` with the included tree as the
SOURCE, and `env.update` overwrites a non-mapping value of the target
with the source's value, so the included `k = 2` replaces the direct
`k = 1`. -/
theorem c1_direct_key_counterexample :
    loadF fsC1 10 ["main.yaml"] false = .ok (.vdict [("k", .vint 2), ("j", .vint 3)]) ∧
    getKey (.vdict [("k", .vint 2), ("j", .vint 3)]) "k" = some (.vint 2) ∧
    some (Value.vint 2) ≠ some (Value.vint 1) ∧
    (Except.ok (Value.vdict [("k", .vint 2), ("j", .vint 3)]) : Except Err Value) ≠
      .ok (.vdict [("k", .vint 1), ("j", .vint 3)]) :=
  ⟨rfl, rfl, by simp, by simp⟩

/-- Claim C1, amended.  Resolving `{include: "extra.yaml", k: 1}` where
`extra.yaml` holds `{k: 2, j: 3}` yields `{k: 2, j: 3}`: the INCLUDED
file's value wins over the including file's direct key at the same level
(for non-mapping values), and the result contains no `include` key at
any depth. -/
theorem c1_included_value_wins :
    loadF fsC1 10 ["main.yaml"] false = .ok (.vdict [("k", .vint 2), ("j", .vint 3)]) ∧
    (loadF fsC1 10 ["main.yaml"] false).map hasIncludeDeep = .ok false :=
  ⟨rfl, rfl⟩

/-- Claim C2, counterexample.  The claim states that whenever the key
exists but either side is not a mapping, `env.update` sets `target[k]`
to a deep copy of `v`.  The code only tests `isinstance(v, dict)` — it
never checks `target[k]`.  With `target = {x: 1}` and source
`{x: {}}` the code recurses into `cls.update(1, {})`, a no-op, leaving
`{x: 1}` where the claim demands `{x: {}}` (the spec-modelled
`updateSpec` result); with source `{x: {a: 2}}` the recursion evaluates
`'a' in 1` and raises `TypeError` instead of assigning. -/
theorem c2_merge_condition_counterexample :
    update1 (.vdict [("x", .vint 1)]) (.vdict [("x", .vdict [])]) =
      .ok (.vdict [("x", .vint 1)]) ∧
    updateSpec (.vdict [("x", .vint 1)]) (.vdict [("x", .vdict [])]) =
      .vdict [("x", .vdict [])] ∧
    (Except.ok (Value.vdict [("x", .vint 1)]) : Except Err Value) ≠
      .ok (.vdict [("x", .vdict [])]) ∧
    update1 (.vdict [("x", .vint 1)]) (.vdict [("x", .vdict [("a", .vint 2)])]) =
      .error .typeErr :=
  ⟨rfl, rfl, by simp, rfl⟩

/-- Claim C2, amended.  For each source entry `(k, v)`, `env.update`
recursively merges exactly when `k` exists in the target AND `v` (the
source value alone — the existing `target[k]` is not inspected) is a
mapping; otherwise it sets `target[k]` to a (deep copy of) `v`.  When
the recursive branch is taken with a non-mapping `target[k]`, the
recursive call operates on that non-mapping and typically raises
`TypeError` — or changes nothing when `v` is empty. -/
theorem c2_merge_step_amended (es : List (String × Value)) (k : String) (v : Value)
    (rest : List (String × Value)) :
    update1 (.vdict es) (.vdict ((k, v) :: rest)) =
      (if containsKey es k && v.isDict then
        (update1 ((lookupKey es k).getD .vnull) v).bind
          (fun cur' => updGo (.vdict (setKey es k cur')) rest)
      else updGo (.vdict (setKey es k v)) rest) := rfl

/-- Claim C3, failing input.  The claim states every `include` directive
is expanded at any depth, so `env.load` returns an include-free tree.
For `main.yaml = {a: {b: {include: "x.yaml"}}}` (with `x.yaml = {j: 3}`
present) the resolver returns the tree UNCHANGED, still containing the
`include` key: `dmap`'s nested call passes `recurse` positionally into
`*mapping`, so walks below depth one run with `recurse=False`, and
`_load_include`'s own `cls.dmap(_load_include, *val, recurse=True)`
splats a dict value into its keys — plain strings that the walker
skips. -/
theorem c3_nested_include_not_expanded :
    loadF fsC3 10 ["main.yaml"] false =
      .ok (.vdict [("a", .vdict [("b", .vdict [("include", .vstr "x.yaml")])])]) ∧
    (loadF fsC3 10 ["main.yaml"] false).map hasIncludeDeep = .ok true ∧
    fsC3.expand "x.yaml" = ["x.yaml"] :=
  ⟨rfl, rfl, rfl⟩

/-- Claim C4, failing input.  The claim requires `env.load` on mutually
including files to terminate with `CyclicIncludeError`.  The code has no
cycle tracking at all: on `a.yaml = {include: "b.yaml"}`,
`b.yaml = {include: "a.yaml"}` it recurses `load → dmap → _load_include
→ load → …` unboundedly, failing only by exhausting the interpreter's
recursion limit (`RecursionError`, modelled as `Err.recLimit`): for
EVERY recursion budget the run aborts with that error, never with a
cycle report. -/
theorem c4_cyclic_include_recursion_error (fuel : Nat) :
    loadF fsCyc fuel ["a.yaml"] false = .error .recLimit ∧
    loadF fsCyc fuel ["b.yaml"] false = .error .recLimit := by
  induction fuel with
  | zero => exact ⟨rfl, rfl⟩
  | succ n ih =>
    have hea : fsCyc.expand "a.yaml" = ["a.yaml"] := rfl
    have heb : fsCyc.expand "b.yaml" = ["b.yaml"] := rfl
    have hfa : fsCyc.file "a.yaml" = .vdict [("include", .vstr "b.yaml")] := rfl
    have hfb : fsCyc.file "b.yaml" = .vdict [("include", .vstr "a.yaml")] := rfl
    refine ⟨?_, ?_⟩
    · simp [loadF, loadPaths, dmapLiOne, dmapEntries, li, loadVal, delKey, shexpand,
        Value.isDict, writeBack, hea, hfa, ih.2, exBindOk, exBindErr]
    · simp [loadF, loadPaths, dmapLiOne, dmapEntries, li, loadVal, delKey, shexpand,
        Value.isDict, writeBack, heb, hfb, ih.1, exBindOk, exBindErr]

/-- Claim C5, failing input.  The claim states that `env.dmap` with
`recurse=True` descends into every nested mapping (still with
`recurse=True`) so the visitor reaches the pairs of every nested mapping.
On `{a: {b: {c: 1}}}` the embedded walker visits only the single pair
`("b", {c: 1})` — at depth one, as an opaque value — and never the pair
`("c", 1)` of the depth-two mapping: the source's nested call
`cls.dmap(callback, v, recurse)` passes `recurse` positionally into
`*mapping`, so the nested walk runs with `recurse=False`. -/
theorem c5_walker_stops_after_one_level :
    dmapTrace true [.vdict [("a", .vdict [("b", .vdict [("c", .vint 1)])])]] =
      [(.vdict [("b", .vdict [("c", .vint 1)])], "b", .vdict [("c", .vint 1)])] ∧
    (.vdict [("c", .vint 1)], "c", Value.vint 1) ∉
      dmapTrace true [.vdict [("a", .vdict [("b", .vdict [("c", .vint 1)])])]] := by
  refine ⟨rfl, ?_⟩
  rw [show dmapTrace true [.vdict [("a", .vdict [("b", .vdict [("c", .vint 1)])])]] =
      [(.vdict [("b", .vdict [("c", .vint 1)])], "b", .vdict [("c", .vint 1)])] from rfl]
  simp

/-- Claim C6, counterexample.  The claim states a resolution call
mutates no input beyond the top-level defaults tree (defensively copied
on entry) and that the returned environment shares no mutable structure
with the stored defaults.  In the heap model, loading one override file
`{project: {src_d: "other"}}` over defaults `{project: {src_d: "src"}}`
MUTATES the stored defaults' nested mapping: after the call the defaults
tree reads back as `{project: {src_d: "other"}}`, because
`ENVIRONMENT_DEFAULTS.copy()` is a shallow copy and `env.update`
recursively writes into the shared nested dict. -/
theorem c6_defaults_mutation_counterexample :
    readTree 50 c6Start.1 c6Start.2 = some c6Defaults ∧
    c6Run.map (fun r => readTree 50 r.1 c6Start.2) =
      .ok (some (.vdict [("project", .vdict [("src_d", .vstr "other")])])) ∧
    some c6Defaults ≠
      some (Value.vdict [("project", .vdict [("src_d", .vstr "other")])]) :=
  ⟨rfl, rfl, by simp [c6Defaults]⟩

/-- Claim C6, amended.  `env.load` shallow-copies the defaults on entry:
the returned environment's TOP-LEVEL mapping is a fresh object (a new
address), but its nested mappings are the very objects of the stored
defaults — after the run the environment's `project` entry and the
defaults' `project` entry are the same address — and merging the
override file wrote through that shared object, so result and defaults
both read back with the overridden nested value. -/
theorem c6_shallow_copy_aliasing :
    c6Run.map (fun r => decide (r.2 = c6Start.2)) = .ok false ∧
    c6Run.map (fun r =>
      decide (childAddr r.1 r.2 "project" = childAddr r.1 c6Start.2 "project")) =
      .ok true ∧
    c6Run.map (fun r => readTree 50 r.1 r.2) =
      .ok (some (.vdict [("project", .vdict [("src_d", .vstr "other")])])) :=
  ⟨rfl, rfl, rfl⟩

/-- Claim C7.  Merging a sequence over a sequence replaces it wholesale:
whenever the target holds a sequence at `k` and the source provides a
sequence at `k`, `env.update` stores (a deep copy of) the source
sequence, never a concatenation; concretely `{l: [1, 2]}` merged with
`{l: [3]}` yields `{l: [3]}` and not `{l: [1, 2, 3]}`. -/
theorem c7_sequence_replacement (es : List (String × Value)) (k : String)
    (xs ys : List Value) (hx : lookupKey es k = some (.vlist xs)) :
    lookupKey es k = some (.vlist xs) ∧
    update1 (.vdict es) (.vdict [(k, .vlist ys)]) =
      .ok (.vdict (setKey es k (.vlist ys))) ∧
    lookupKey (setKey es k (.vlist ys)) k = some (.vlist ys) ∧
    update1 (.vdict [("l", .vlist [.vint 1, .vint 2])])
        (.vdict [("l", .vlist [.vint 3])]) =
      .ok (.vdict [("l", .vlist [.vint 3])]) ∧
    Value.vdict [("l", .vlist [.vint 3])] ≠
      .vdict [("l", .vlist [.vint 1, .vint 2, .vint 3])] := by
  refine ⟨hx, ?_, lookupKey_setKey_self es k _, rfl, by simp⟩
  show updGo (.vdict es) [(k, .vlist ys)] = .ok (.vdict (setKey es k (.vlist ys)))
  rw [updGo]
  simp [pyContains, exBindOk, Value.isDict, updGo]

/-- Witness for C7 at the spec's own example. -/
theorem c7_sequence_replacement_witness :
    lookupKey [("l", .vlist [.vint 1, .vint 2])] "l" = some (.vlist [.vint 1, .vint 2]) ∧
    update1 (.vdict [("l", .vlist [.vint 1, .vint 2])])
        (.vdict [("l", .vlist [.vint 3])]) =
      .ok (.vdict (setKey [("l", .vlist [.vint 1, .vint 2])] "l" (.vlist [.vint 3]))) ∧
    lookupKey (setKey [("l", .vlist [.vint 1, .vint 2])] "l" (.vlist [.vint 3])) "l" =
      some (.vlist [.vint 3]) ∧
    update1 (.vdict [("l", .vlist [.vint 1, .vint 2])])
        (.vdict [("l", .vlist [.vint 3])]) =
      .ok (.vdict [("l", .vlist [.vint 3])]) ∧
    Value.vdict [("l", .vlist [.vint 3])] ≠
      .vdict [("l", .vlist [.vint 1, .vint 2, .vint 3])] :=
  c7_sequence_replacement [("l", .vlist [.vint 1, .vint 2])] "l"
    [.vint 1, .vint 2] [.vint 3] rfl

/-- Claim C8.  Resolution and merge are deterministic: with the same
file system (unchanged between the calls), the same pattern list, the
same recursion budget and the same defaults flag, two runs of `env.load`
are structurally equal, and repeated `env.update` runs on the same
inputs give the same result.  In this embedding all effects (glob
results, file contents) are explicit inputs, so determinism is
functionality. -/
theorem c8_determinism (fs1 fs2 : FS) (pats1 pats2 : List String) (fuel : Nat)
    (ud : Bool) (t : Value) (ss : List Value)
    (hfs : fs1 = fs2) (hp : pats1 = pats2) :
    loadF fs1 fuel pats1 ud = loadF fs2 fuel pats2 ud ∧
    updateMany t ss = updateMany t ss := by
  subst hfs
  subst hp
  exact ⟨rfl, rfl⟩

/-- Witness for C8 at a concrete run. -/
theorem c8_determinism_witness :
    loadF fsC1 10 ["main.yaml"] false = loadF fsC1 10 ["main.yaml"] false ∧
    updateMany (.vdict []) [.vdict [("k", .vint 1)]] =
      updateMany (.vdict []) [.vdict [("k", .vint 1)]] :=
  c8_determinism fsC1 fsC1 ["main.yaml"] ["main.yaml"] 10 false
    (.vdict []) [.vdict [("k", .vint 1)]] rfl rfl

/-- Claim C9.  A pattern matching zero files raises no error and
contributes nothing: `env.load` on such a pattern alone, without
defaults, returns the empty mapping (for any positive recursion
budget). -/
theorem c9_empty_pattern (fsys : FS) (p : String) (fuel : Nat)
    (h : fsys.expand p = []) :
    loadF fsys (fuel + 1) [p] false = .ok (.vdict []) := by
  simp [loadF, shexpand, h, dmapLiOne, dmapEntries, loadPaths, exBindOk]

/-- Witness for C9 on the empty file system. -/
theorem c9_empty_pattern_witness :
    fsNada.expand "nope" = [] ∧
    loadF fsNada 1 ["nope"] false = .ok (.vdict []) :=
  ⟨rfl, c9_empty_pattern fsNada "nope" 0 rfl⟩

/-- Claim C10.  `env.update` never removes keys from its target: for a
dict target and any list of sources, every key present before the merge
is still present after a successful merge (its value possibly replaced
or recursively merged). -/
theorem c10_update_never_removes_keys (t : Value) (ss : List Value) (t' : Value)
    (h : updateMany t ss = .ok t') (k : String) (hk : hasKey t k = true) :
    hasKey t' k = true := by
  induction ss generalizing t with
  | nil =>
    rw [updateMany] at h
    cases h
    exact hk
  | cons s rest ih =>
    rw [updateMany] at h
    cases h1 : update1 t s with
    | error e => rw [h1] at h; simp [exBindErr] at h
    | ok t1 =>
      rw [h1] at h
      simp only [exBindOk] at h
      exact ih t1 h (update1_hasKey t s t1 h1 k hk)

/-- Witness for C10 at a concrete merge. -/
theorem c10_update_never_removes_keys_witness :
    hasKey (Value.vdict [("a", .vint 1), ("b", .vint 2)]) "a" = true :=
  c10_update_never_removes_keys (.vdict [("a", .vint 1)]) [.vdict [("b", .vint 2)]]
    (.vdict [("a", .vint 1), ("b", .vint 2)]) rfl "a" rfl
